import Mathlib

/-!
Verification development for the numpad interpreter (numpad.py, numpadrun.py).

The runtime core is shallowly embedded:
* machine values (`Value`) are integers, heap references to mutable lists,
  and function closures; the Python heap of list objects is an explicit
  `Heap` (list of lists of values) so that in-place mutation and aliasing
  are observable;
* scopes (`Frame`, ancestor chain) are association lists from slot names to
  values, mirroring `Scope._variables` dictionaries and the parent chain;
* the evaluator is fuel-indexed (`none` = fuel exhausted or a computation
  the model cannot follow, never a behaviour of the program);
* fallible Python operations return `Except Err`, with `Err` separating
  `NumpadError` raises from Python-level exceptions (KeyError, TypeError,
  IndexError, ZeroDivisionError), since the spec distinguishes them;
* the source computes `x / y` and `_float_to_list` in binary64 floating
  point; the model represents `dec = x / y` as the exact integer fraction.
  Every concrete input used in a theorem below is chosen so that the
  binary64 computation is exact, hence agrees with the exact model, and
  every universally quantified statement about division carries an
  explicit hypothesis confining it to quotients the binary64 division
  computes exactly (magnitude at most 2^53).  The
  `*-` (logarithm) and negative-exponent `*+` entries are irreducibly
  floating-point and are mapped to the "model cannot follow" outcome; no
  claim depends on them.
-/

/-- Error taxonomy: `numpad` errors are `NumpadError` raises in the source,
`python` errors are Python-level exceptions escaping from the interpreter
code itself. -/
inductive NKind where
  | unsupported
  | undefinedVar
  | notFound
  deriving DecidableEq

inductive PKind where
  | keyError
  | typeError
  | indexError
  | zeroDiv
  | noneType
  deriving DecidableEq

inductive Err where
  | numpad (k : NKind)
  | python (k : PKind)
  deriving DecidableEq

/-- The eleven operator symbols produced by the numpad lexer/parser:
dot-dot, dot-plus, dot-minus, plus, minus, star, slash, star-plus,
star-minus, slash-plus, slash-minus. -/
inductive Op where
  | opEq        -- '..'
  | opGt        -- '.+'
  | opLt        -- '.-'
  | opAdd       -- '+'
  | opSub       -- '-'
  | opMul       -- '*'
  | opDiv       -- '/'
  | opPow       -- '*+'
  | opLog       -- '*-'
  | opMod       -- '/+'
  | opFloorDiv  -- '/-'
  deriving DecidableEq

mutual

/-- Runtime value: Python int, reference to a heap-allocated Python list,
or a `FuncExpression` (default parameter values plus statement block). -/
inductive Value where
  | int (i : Int)
  | listRef (r : Nat)
  | func (defaults : List Value) (body : Block)

/-- Expression tree (`Expression` / `OperExpression` in numpad.py): an int
literal, a variable name (string starting with '*'), a list display of
subexpressions, or a binary operator application. -/
inductive Expr where
  | lit (i : Int)
  | var (name : String)
  | elist (es : List Expr)
  | oper (l : Expr) (op : Op) (r : Expr)

/-- Statements of numpad.py: StatementSet, StatementSetIndex, StatementDef,
StatementIf (with optional else block), StatementWhile. -/
inductive Stmt where
  | set (name : String) (e : Expr)
  | setIndex (name : String) (indices : List SIdx) (e : Expr)
  | sdef (name : String) (defaults : List Value) (body : Block)
  | sif (cond : Expr) (thenB : Block) (elseB : Option Block)
  | swhile (cond : Expr) (body : Block)

/-- An element of a `StatementSetIndex` index path: a literal integer or
the name of a slot (a Python `str`) to be resolved at mutation time. -/
inductive SIdx where
  | lit (n : Int)
  | slot (s : String)

/-- StatementBlock: an ordered list of statements. -/
inductive Block where
  | mk (stmts : List Stmt)

end

/-- The heap of Python list objects; a `Value.listRef r` denotes the list
stored at index `r`. -/
abbrev Heap := List (List Value)

/-- One scope's `_variables` dictionary, as an association list. -/
abbrev Frame := List (String × Value)

/-- Loop body of `OperExpression._float_to_list`.  The real number `dec`
is represented exactly as the fraction `num / den` (the only caller passes
`dec = x / y`, and each iteration multiplies `dec` by 10, so the
denominator stays fixed).  While `dec % 1` is non-zero (`den` does not
divide `num`) and `power < 10`, multiply `dec` by 10 and decrement
`power`; afterwards return `[int(dec), power]`, where Python's `int(...)`
truncates toward zero.  Fuel-indexed because the source loop's termination
relies on binary64 round-off; `none` means the model ran out of fuel. -/
def floatToListGo (fuel : Nat) (num den power : Int) : Option (Int × Int) :=
  if ¬ den ∣ num ∧ power < 10 then
    match fuel with
    | 0 => none
    | f + 1 => floatToListGo f (num * 10) den (power - 1)
  else
    some (Int.tdiv num den, power)

/-- `OperExpression._float_to_list` applied to the exact fraction
`num / den`, starting from `power = 0`. -/
def floatToList (fuel : Nat) (num den : Int) : Option (Int × Int) :=
  floatToListGo fuel num den 0

example : floatToList 20 1 4 = some (25, -2) := by decide
example : floatToList 20 10 2 = some (5, 0) := by decide

/-- Python's `str(i)` for a natural number, as used by the f-strings
building slot names; equal by definition to Lean's decimal rendering. -/
def natStr (n : Nat) : String := Nat.repr n

/-- Slot name built by the f-strings in numpadrun.run and
FuncExpression.run, both of which render the sigil, a zero, then the
decimal index. -/
def slotName (i : Nat) : String := "*0" ++ natStr i

/-- Dictionary read on one scope's own `_variables` (Python `name in d` /
`d[name]`). -/
def frameGet (f : Frame) (k : String) : Option Value :=
  (f.find? (fun p => p.1 == k)).map (fun p => p.2)

/-- Dictionary write on one scope's own `_variables` (`d[name] = v`):
overwrite the binding if the key is present, append it otherwise. -/
def frameSet : Frame → String → Value → Frame
  | [], k, v => [(k, v)]
  | p :: rest, k, v =>
    if p.1 == k then (k, v) :: rest else p :: frameSet rest k v

/-- `Scope.get_value` / `NullScope.get_value`: search the current frame's
own dictionary; on a miss a scope with a parent delegates to it, while the
root NullScope raises the NumpadError reported for an undefined
variable. -/
def lookupChain : Frame → List Frame → String → Except Err Value
  | f, [], k =>
    match frameGet f k with
    | some v => Except.ok v
    | none => Except.error (Err.numpad NKind.undefinedVar)
  | f, g :: rest, k =>
    match frameGet f k with
    | some v => Except.ok v
    | none => lookupChain g rest k

/-- Normalize a Python sequence index: negative indices count from the
end; out-of-range yields `none` (an IndexError at use sites). -/
def pyNorm (len : Nat) (i : Int) : Option Nat :=
  let j : Int := if i < 0 then i + len else i
  if 0 ≤ j ∧ j < (len : Int) then some j.toNat else none

/-- Python `l[i]` for reading (raises IndexError when `pyNorm` fails). -/
def pyGet (l : List α) (i : Int) : Option α :=
  (pyNorm l.length i).bind (fun j => l.get? j)

/-- Python `l[i] = v` (raises IndexError when `pyNorm` fails). -/
def pySet (l : List α) (i : Int) (v : α) : Option (List α) :=
  (pyNorm l.length i).map (fun j => l.set j v)

/-- Python slice `l[i:]`, with the usual clamping of out-of-range and
negative bounds. -/
def pySliceFrom (l : List α) (i : Int) : List α :=
  let j : Int := if i < 0 then i + l.length else i
  if j ≤ 0 then l else l.drop j.toNat

/-- Python slice `l[:i]`, with the usual clamping of out-of-range and
negative bounds. -/
def pySliceTo (l : List α) (i : Int) : List α :=
  let j : Int := if i < 0 then i + l.length else i
  if j ≤ 0 then [] else l.take j.toNat

/-- Python truthiness as used by StatementIf/StatementWhile (`if value:`):
an int is truthy iff non-zero, a list iff non-empty, and a FuncExpression
object is always truthy. -/
def truthy (h : Heap) : Value → Bool
  | Value.int i => i != 0
  | Value.listRef r => (h.getD r []).length != 0
  | Value.func _ _ => true

mutual

/-- Python `==` between runtime values, as used by the operator tables:
ints compare numerically, lists compare element-wise through the heap
(with the identity fast path on references), and any cross-variant
comparison is False.  Python compares FuncExpression objects by identity,
which a value embedding cannot observe; the model compares distinct
function values as unequal.  No claim depends on function comparison. -/
def valueEqF : Nat → Heap → Value → Value → Option Bool
  | _, _, Value.int a, Value.int b => some (a == b)
  | fuel, h, Value.listRef a, Value.listRef b =>
    if a == b then some true
    else
      match fuel with
      | 0 => none
      | fuel + 1 => listEqF fuel h (h.getD a []) (h.getD b [])
  | _, _, _, _ => some false

/-- Element-wise Python `==` on two list bodies. -/
def listEqF : Nat → Heap → List Value → List Value → Option Bool
  | _, _, [], [] => some true
  | fuel, h, x :: xs, y :: ys =>
    match fuel with
    | 0 => none
    | fuel + 1 =>
      match valueEqF fuel h x y with
      | none => none
      | some false => some false
      | some true => listEqF fuel h xs ys
  | _, _, _, _ => some false

end

/-- Python `v in xs` (membership by `==`). -/
def memF : Nat → Heap → Value → List Value → Option Bool
  | _, _, _, [] => some false
  | fuel, h, v, x :: xs =>
    match fuel with
    | 0 => none
    | fuel + 1 =>
      match valueEqF fuel h v x with
      | none => none
      | some true => some true
      | some false => memF fuel h v xs

/-- Python `all(i in xs for i in ys)`: every element of `ys` is a member
of `xs`. -/
def allMemF : Nat → Heap → List Value → List Value → Option Bool
  | _, _, _, [] => some true
  | fuel, h, xs, y :: ys =>
    match fuel with
    | 0 => none
    | fuel + 1 =>
      match memF fuel h y xs with
      | none => none
      | some false => some false
      | some true => allMemF fuel h xs ys

/-- Result of one operator dispatch in `OperExpression.evaluate`:
a value (with a possibly grown heap), a pending function call (the
Function×List pending `-` invocation), a raised error, or a computation
the model cannot follow (binary64-only arithmetic, or equality fuel
exhaustion). -/
inductive DOut where
  | ok (v : Value) (h : Heap)
  | call (defaults : List Value) (body : Block) (argsRef : Nat)
  | err (e : Err)
  | stuck

/-- Allocate a fresh Python list object on the heap. -/
def alloc (h : Heap) (l : List Value) : Value × Heap :=
  (Value.listRef h.length, h ++ [l])

/-- Booleans produced by the comparison operators: Python `int(b)`. -/
def b2i (b : Bool) : Value := Value.int (if b then 1 else 0)

/-- The type-pair dispatch of `OperExpression.evaluate` together with the
four operator tables `oper_int_int`, `oper_list_int`, `oper_int_list`,
`oper_list_list`.  The branch order and the guard structure mirror the
source: int×int indexes its table directly (every one of the eleven
symbols is a key, so no miss is possible); Function×List accepts only the
subtract symbol and otherwise raises NumpadError; the remaining three
pairs check membership in their tables and raise NumpadError on a miss;
any other variant pair falls through to the final NumpadError raise. -/
def dispatch (fuel : Nat) (heap : Heap) (op : Op) (vl vr : Value) : DOut :=
  match vl, vr with
  | Value.int x, Value.int y =>
    match op with
    | Op.opEq => DOut.ok (b2i (x == y)) heap
    | Op.opGt => DOut.ok (b2i (y < x)) heap
    | Op.opLt => DOut.ok (b2i (x < y)) heap
    | Op.opAdd => DOut.ok (Value.int (x + y)) heap
    | Op.opSub => DOut.ok (Value.int (x - y)) heap
    | Op.opMul => DOut.ok (Value.int (x * y)) heap
    | Op.opDiv =>
      if y = 0 then DOut.err (Err.python PKind.zeroDiv)
      else
        match floatToList fuel x y with
        | some (m, p) =>
          match alloc heap [Value.int m, Value.int p] with
          | (v, h2) => DOut.ok v h2
        | none => DOut.stuck
    | Op.opPow =>
      if 0 ≤ y then DOut.ok (Value.int (x ^ y.toNat)) heap
      else if x = 0 then DOut.err (Err.python PKind.zeroDiv)
      else DOut.stuck
    | Op.opLog => DOut.stuck
    | Op.opMod =>
      if y = 0 then DOut.err (Err.python PKind.zeroDiv)
      else DOut.ok (Value.int (Int.fmod x y)) heap
    | Op.opFloorDiv =>
      if y = 0 then DOut.err (Err.python PKind.zeroDiv)
      else DOut.ok (Value.int (Int.fdiv x y)) heap
  | Value.func d b, Value.listRef r =>
    if op = Op.opSub then DOut.call d b r
    else DOut.err (Err.numpad NKind.unsupported)
  | Value.listRef r, Value.int y =>
    let xs := heap.getD r []
    match op with
    | Op.opEq => DOut.ok (b2i ((xs.length : Int) == y)) heap
    | Op.opGt => DOut.ok (b2i (y < (xs.length : Int))) heap
    | Op.opLt => DOut.ok (b2i ((xs.length : Int) < y)) heap
    | Op.opAdd =>
      match alloc heap (xs ++ [Value.int y]) with
      | (v, h2) => DOut.ok v h2
    | Op.opSub =>
      match alloc heap (pySliceTo xs y ++ pySliceFrom xs (y + 1)) with
      | (v, h2) => DOut.ok v h2
    | Op.opDiv =>
      match pyGet xs y with
      | some v => DOut.ok v heap
      | none => DOut.err (Err.python PKind.indexError)
    | Op.opMod =>
      match alloc heap (pySliceFrom xs y) with
      | (v, h2) => DOut.ok v h2
    | Op.opFloorDiv =>
      match alloc heap (pySliceTo xs y) with
      | (v, h2) => DOut.ok v h2
    | _ => DOut.err (Err.numpad NKind.unsupported)
  | Value.int x, Value.listRef r =>
    let ys := heap.getD r []
    match op with
    | Op.opEq => DOut.ok (b2i (x == (ys.length : Int))) heap
    | Op.opGt => DOut.ok (b2i ((ys.length : Int) < x)) heap
    | Op.opLt => DOut.ok (b2i (x < (ys.length : Int))) heap
    | _ => DOut.err (Err.numpad NKind.unsupported)
  | Value.listRef a, Value.listRef b =>
    let xs := heap.getD a []
    let ys := heap.getD b []
    match op with
    | Op.opEq =>
      match valueEqF fuel heap (Value.listRef a) (Value.listRef b) with
      | some bl => DOut.ok (b2i bl) heap
      | none => DOut.stuck
    | Op.opGt => DOut.ok (b2i (ys.length < xs.length)) heap
    | Op.opLt => DOut.ok (b2i (xs.length < ys.length)) heap
    | Op.opAdd =>
      match alloc heap (xs ++ [Value.listRef b]) with
      | (v, h2) => DOut.ok v h2
    | Op.opMul =>
      match alloc heap (xs ++ ys) with
      | (v, h2) => DOut.ok v h2
    | Op.opMod =>
      match allMemF fuel heap xs ys with
      | some bl => DOut.ok (b2i bl) heap
      | none => DOut.stuck
    | Op.opFloorDiv =>
      match allMemF fuel heap ys xs with
      | some bl => DOut.ok (b2i bl) heap
      | none => DOut.stuck
    | _ => DOut.err (Err.numpad NKind.unsupported)
  | _, _ => DOut.err (Err.numpad NKind.unsupported)

/-- Resolution of a non-final index-path element in `Scope.set_value`:
a Python `str` is resolved through `get_value` (current scope then
ancestors); the resulting object is then used as a list index, so a
non-int resolved value raises TypeError at the subscript. -/
def resolveIdxInt (frame : Frame) (anc : List Frame) : SIdx → Except Err Int
  | SIdx.lit n => Except.ok n
  | SIdx.slot s =>
    match lookupChain frame anc s with
    | Except.error e => Except.error e
    | Except.ok (Value.int n) => Except.ok n
    | Except.ok _ => Except.error (Err.python PKind.typeError)

/-- The index-path walk of `Scope.set_value`: descend through
`indices[:-1]` (resolving slot names as encountered), then assign
`to_change[indices[-1]] = value`.  The final element is used as a raw
subscript without resolution, so a slot-name final index raises TypeError;
subscripting a non-list raises TypeError; an out-of-range index raises
IndexError. -/
def walkSet (heap : Heap) (frame : Frame) (anc : List Frame) (v : Value) :
    Value → List SIdx → Except Err Heap
  | cur, [lastI] =>
    match cur with
    | Value.listRef r =>
      match lastI with
      | SIdx.lit n =>
        match pySet (heap.getD r []) n v with
        | some xs2 => Except.ok (heap.set r xs2)
        | none => Except.error (Err.python PKind.indexError)
      | SIdx.slot _ => Except.error (Err.python PKind.typeError)
    | _ => Except.error (Err.python PKind.typeError)
  | cur, i :: rest =>
    match resolveIdxInt frame anc i with
    | Except.error e => Except.error e
    | Except.ok n =>
      match cur with
      | Value.listRef r =>
        match pyGet (heap.getD r []) n with
        | some cur2 => walkSet heap frame anc v cur2 rest
        | none => Except.error (Err.python PKind.indexError)
      | _ => Except.error (Err.python PKind.typeError)
  | _, [] => Except.error (Err.python PKind.typeError)

/-- `Scope.set_value(variable_name, value, indices)`: with no indices,
(over)write the name in the current scope's own dictionary; with indices,
fetch `self._variables[variable_name]` from the current scope's own
dictionary only (a name held by an ancestor raises KeyError), then walk
the index path and mutate the addressed list element in place on the
heap. -/
def setValue (heap : Heap) (frame : Frame) (anc : List Frame)
    (name : String) (indices : List SIdx) (v : Value) :
    Except Err (Heap × Frame) :=
  match indices with
  | [] => Except.ok (heap, frameSet frame name v)
  | _ :: _ =>
    match frameGet frame name with
    | none => Except.error (Err.python PKind.keyError)
    | some cur =>
      match walkSet heap frame anc v cur indices with
      | Except.error e => Except.error e
      | Except.ok h2 => Except.ok (h2, frame)

/-- Dictionary comprehension over `enumerate(...)` building a frame whose
keys are `slotName start`, `slotName (start+1)`, ... -/
def buildFrame (start : Nat) : List Value → Frame
  | [] => []
  | v :: vs => (slotName start, v) :: buildFrame (start + 1) vs

/-- The child-scope dictionary of `FuncExpression.run`:
slots numbered from 1 bound to the (extended) argument values. -/
def paramFrame (args : List Value) : Frame := buildFrame 1 args

mutual

/-- `Expression.evaluate` / `OperExpression.evaluate` /
`FuncExpression.evaluate`: reduce an expression tree to a value,
threading the heap.  Fuel-indexed; `none` never corresponds to a result
or error of the source program. -/
def evalExpr : Nat → Heap → Frame → List Frame → Expr →
    Option (Except Err (Value × Heap))
  | 0, _, _, _, _ => none
  | _ + 1, heap, _, _, Expr.lit i => some (Except.ok (Value.int i, heap))
  | _ + 1, heap, frame, anc, Expr.var s =>
    match lookupChain frame anc s with
    | Except.ok v => some (Except.ok (v, heap))
    | Except.error e => some (Except.error e)
  | fuel + 1, heap, frame, anc, Expr.elist es =>
    match evalExprList fuel heap frame anc es with
    | none => none
    | some (Except.error e) => some (Except.error e)
    | some (Except.ok (vs, h2)) =>
      match alloc h2 vs with
      | (v, h3) => some (Except.ok (v, h3))
  | fuel + 1, heap, frame, anc, Expr.oper l op r =>
    match evalExpr fuel heap frame anc l with
    | none => none
    | some (Except.error e) => some (Except.error e)
    | some (Except.ok (vl, h1)) =>
      match evalExpr fuel h1 frame anc r with
      | none => none
      | some (Except.error e) => some (Except.error e)
      | some (Except.ok (vr, h2)) =>
        match dispatch fuel h2 op vl vr with
        | DOut.ok v h3 => some (Except.ok (v, h3))
        | DOut.err e => some (Except.error e)
        | DOut.stuck => none
        | DOut.call d b argr => funcRun fuel h2 frame anc d b argr

/-- Evaluation of the elements of a list display, left to right. -/
def evalExprList : Nat → Heap → Frame → List Frame → List Expr →
    Option (Except Err (List Value × Heap))
  | 0, _, _, _, _ => none
  | _ + 1, heap, _, _, [] => some (Except.ok ([], heap))
  | fuel + 1, heap, frame, anc, e :: es =>
    match evalExpr fuel heap frame anc e with
    | none => none
    | some (Except.error er) => some (Except.error er)
    | some (Except.ok (v, h2)) =>
      match evalExprList fuel h2 frame anc es with
      | none => none
      | some (Except.error er) => some (Except.error er)
      | some (Except.ok (vs, h3)) => some (Except.ok (v :: vs, h3))

/-- `FuncExpression.run(scope, params)`: extend the argument list object
IN PLACE with the unsupplied defaults
(`params[len(params):] = self._param[len(params):]`), create a child
scope of the calling scope binding slots numbered from 1 to the extended
arguments, initialize slot "*00" to 0, run the body, and return the
child's final "*00". -/
def funcRun : Nat → Heap → Frame → List Frame → List Value → Block → Nat →
    Option (Except Err (Value × Heap))
  | 0, _, _, _, _, _, _ => none
  | fuel + 1, heap, frame, anc, defaults, body, r =>
    match heap.get? r with
    | none => some (Except.error (Err.python PKind.keyError))
    | some args =>
      let newArgs := args ++ defaults.drop args.length
      let h2 := heap.set r newArgs
      let childF := frameSet (paramFrame newArgs) "*00" (Value.int 0)
      match execBlock fuel h2 childF (frame :: anc) body with
      | none => none
      | some (Except.error e) => some (Except.error e)
      | some (Except.ok (h3, childF2)) =>
        match lookupChain childF2 (frame :: anc) "*00" with
        | Except.ok v => some (Except.ok (v, h3))
        | Except.error e => some (Except.error e)

/-- Execution of a single statement against the current scope. -/
def execStmt : Nat → Heap → Frame → List Frame → Stmt →
    Option (Except Err (Heap × Frame))
  | 0, _, _, _, _ => none
  | fuel + 1, heap, frame, anc, Stmt.set name e =>
    match evalExpr fuel heap frame anc e with
    | none => none
    | some (Except.error er) => some (Except.error er)
    | some (Except.ok (v, h2)) =>
      match setValue h2 frame anc name [] v with
      | Except.error er => some (Except.error er)
      | Except.ok (h3, f2) => some (Except.ok (h3, f2))
  | fuel + 1, heap, frame, anc, Stmt.setIndex name idxs e =>
    match evalExpr fuel heap frame anc e with
    | none => none
    | some (Except.error er) => some (Except.error er)
    | some (Except.ok (v, h2)) =>
      match setValue h2 frame anc name idxs v with
      | Except.error er => some (Except.error er)
      | Except.ok (h3, f2) => some (Except.ok (h3, f2))
  | _ + 1, heap, frame, _, Stmt.sdef name defaults body =>
    some (Except.ok (heap, frameSet frame name (Value.func defaults body)))
  | fuel + 1, heap, frame, anc, Stmt.sif c tb eb =>
    match evalExpr fuel heap frame anc c with
    | none => none
    | some (Except.error er) => some (Except.error er)
    | some (Except.ok (v, h2)) =>
      if truthy h2 v then execBlock fuel h2 frame anc tb
      else
        match eb with
        | some b => execBlock fuel h2 frame anc b
        | none => some (Except.ok (h2, frame))
  | fuel + 1, heap, frame, anc, Stmt.swhile c body =>
    match evalExpr fuel heap frame anc c with
    | none => none
    | some (Except.error er) => some (Except.error er)
    | some (Except.ok (v, h2)) =>
      if truthy h2 v then
        match execBlock fuel h2 frame anc body with
        | none => none
        | some (Except.error er) => some (Except.error er)
        | some (Except.ok (h3, f2)) =>
          execStmt fuel h3 f2 anc (Stmt.swhile c body)
      else some (Except.ok (h2, frame))

/-- Execution of the statements of a block in order
(`StatementBlock.run`). -/
def execStmts : Nat → Heap → Frame → List Frame → List Stmt →
    Option (Except Err (Heap × Frame))
  | 0, _, _, _, _ => none
  | _ + 1, heap, frame, _, [] => some (Except.ok (heap, frame))
  | fuel + 1, heap, frame, anc, s :: rest =>
    match execStmt fuel heap frame anc s with
    | none => none
    | some (Except.error er) => some (Except.error er)
    | some (Except.ok (h2, f2)) => execStmts fuel h2 f2 anc rest

/-- `StatementBlock.run` on the wrapped statement list. -/
def execBlock : Nat → Heap → Frame → List Frame → Block →
    Option (Except Err (Heap × Frame))
  | 0, _, _, _, _ => none
  | fuel + 1, heap, frame, anc, Block.mk l => execStmts fuel heap frame anc l

end

/-- The parameter dictionary built by `numpadrun.run` from the delimited
integer parameter string: slot `*0i` holds the i-th integer, counting
from 0. -/
def seedFrame (params : List Int) : Frame :=
  buildFrame 0 (params.map Value.int)

/-- The root scope at the moment the program body starts: `run` builds a
NullScope over the parameter dictionary and then executes
`scope.set_value("*00", 0)`. -/
def initialScope (params : List Int) : Frame :=
  frameSet (seedFrame params) "*00" (Value.int 0)

/-- `numpadrun.run` after module resolution: seed the root scope from the
parameters, run the program, and return the final value of slot "*00". -/
def runProgram (fuel : Nat) (prog : Block) (params : List Int) :
    Option (Except Err Value) :=
  match execBlock fuel [] (initialScope params) [] prog with
  | none => none
  | some (Except.error e) => some (Except.error e)
  | some (Except.ok (_, f2)) =>
    match lookupChain f2 [] "*00" with
    | Except.ok v => some (Except.ok v)
    | Except.error e => some (Except.error e)

/-- Whether an operator symbol is absent from the dispatch table matched
by the pair of operand variants, read off the tables of numpad.py:
`oper_int_int` holds all eleven symbols; the Function×List pseudo-pair
admits only the subtract symbol; `oper_list_int`, `oper_int_list` and
`oper_list_list` hold the listed keys; every other variant pair has no
table at all. -/
def missesTable (op : Op) (vl vr : Value) : Bool :=
  match vl, vr with
  | Value.int _, Value.int _ => false
  | Value.func _ _, Value.listRef _ => op != Op.opSub
  | Value.listRef _, Value.int _ =>
    !(op ∈ [Op.opEq, Op.opGt, Op.opLt, Op.opAdd, Op.opSub, Op.opDiv,
            Op.opMod, Op.opFloorDiv])
  | Value.int _, Value.listRef _ =>
    !(op ∈ [Op.opEq, Op.opGt, Op.opLt])
  | Value.listRef _, Value.listRef _ =>
    !(op ∈ [Op.opEq, Op.opGt, Op.opLt, Op.opAdd, Op.opMul,
            Op.opMod, Op.opFloorDiv])
  | _, _ => true

/-- A source unit as the module resolver sees it: the first line (the
header listing the imports) and the remaining text (the body, kept with
its syntax intact).  `text.split('\n', maxsplit=1)` in the source corresponds to the
two fields. -/
structure NpdText where
  header : String
  body : String
  deriving DecidableEq

/-- Python's `str.split('.')` on the header characters: cut at every dot,
keeping empty pieces. -/
def splitDotGo : List Char → List Char → List String
  | [], acc => [String.mk acc.reverse]
  | c :: cs, acc =>
    if c = '.' then String.mk acc.reverse :: splitDotGo cs []
    else splitDotGo cs (c :: acc)

/-- The dependency names of a unit's header: an empty header line is
falsy, so there are no imports; otherwise the header is split on '.'
(`imports.split('.')`). -/
def importsOf (t : NpdText) : List String :=
  if t.header = "" then [] else splitDotGo t.header.data []

/-- The loop state of `load_program`: the two parallel lists `files` and
`texts`, and the processing index `i` (a Python int; the source's
`i += d_i` can in principle move it anywhere). -/
structure LPState where
  files : List String
  texts : List (Option NpdText)
  idx : Int
  deriving DecidableEq

/-- One dependency of the current unit's header, processed by the body of
`for im_file in imports.split('.')`: if the name appears in `files[:i]`,
append the (name, text) pair and delete its first occurrence (the move),
decrementing `d_i`; otherwise append the name with unloaded text. -/
def moveStep (i : Int) (acc : List String × List (Option NpdText) × Int)
    (im : String) : List String × List (Option NpdText) × Int :=
  match acc with
  | (files, texts, d) =>
    if im ∈ pySliceTo files i then
      let j := files.indexOf im
      ((files ++ [im]).eraseIdx j,
       (texts ++ [texts.getD j none]).eraseIdx j,
       d - 1)
    else
      (files ++ [im], texts ++ [none], d)

/-- One iteration of the `while i < len(files)` loop of `load_program`:
load the current unit's text if not cached, record it, process its header
dependencies, and advance the index by `d_i`. -/
def lpStep (env : String → Option NpdText) (s : LPState) :
    Except Err LPState :=
  match pyGet s.texts s.idx with
  | none => Except.error (Err.python PKind.indexError)
  | some cached =>
    let loaded : Except Err NpdText :=
      match cached with
      | some t => Except.ok t
      | none =>
        match pyGet s.files s.idx with
        | none => Except.error (Err.python PKind.indexError)
        | some nm =>
          match env nm with
          | some t => Except.ok t
          | none => Except.error (Err.numpad NKind.notFound)
    match loaded with
    | Except.error e => Except.error e
    | Except.ok text =>
      let texts1 :=
        match pyNorm s.texts.length s.idx with
        | some j => s.texts.set j (some text)
        | none => s.texts
      match (importsOf text).foldl (moveStep s.idx) (s.files, texts1, 1) with
      | (files2, texts2, d) => Except.ok ⟨files2, texts2, s.idx + d⟩

/-- The resolver loop, fuel-indexed: run `lpStep` while `i < len(files)`;
on normal exit return the final `texts` list.  `none` means the loop had
not terminated after `fuel` iterations. -/
def lpRun (env : String → Option NpdText) :
    Nat → LPState → Option (Except Err (List (Option NpdText)))
  | 0, _ => none
  | fuel + 1, s =>
    if s.idx < (s.files.length : Int) then
      match lpStep env s with
      | Except.error e => some (Except.error e)
      | Except.ok s2 => lpRun env fuel s2
    else
      some (Except.ok s.texts)

/-- The final assembly of `load_program`: starting from a single newline,
prepend each unit's body in list order
(`final_text = text.split('\n', maxsplit=1)[1] + final_text`). -/
def assemble (texts : List (Option NpdText)) : Except Err String :=
  texts.foldlM
    (fun acc ot =>
      match ot with
      | some t => Except.ok (t.body ++ acc)
      | none => Except.error (Err.python PKind.noneType))
    "\n"

/-- `load_program` for an entry unit name: run the resolver loop from
`files = [entry]`, `texts = [None]`, `i = 0`, then assemble the
concatenated program text (the file-system search for the entry is the
external collaborator contract and is represented by `env`). -/
def loadProgramText (env : String → Option NpdText) (fuel : Nat)
    (entry : String) : Option (Except Err String) :=
  match lpRun env fuel ⟨[entry], [none], 0⟩ with
  | none => none
  | some (Except.error e) => some (Except.error e)
  | some (Except.ok texts) => some (assemble texts)

/-- The two-unit cyclic import scenario: unit X's header imports Y and
unit Y's header imports X (bodies are arbitrary one-line programs). -/
def cycEnv : String → Option NpdText := fun n =>
  if n = "X" then some ⟨"Y", "1\n"⟩
  else if n = "Y" then some ⟨"X", "2\n"⟩
  else none

/-- Resolver state reached from the X entry after two iterations (both
texts loaded, X before Y, index 1). -/
def cycA : LPState :=
  ⟨["X", "Y"], [some ⟨"Y", "1\n"⟩, some ⟨"X", "2\n"⟩], 1⟩

/-- Resolver state with the two units swapped (Y before X, index 1). -/
def cycB : LPState :=
  ⟨["Y", "X"], [some ⟨"X", "2\n"⟩, some ⟨"Y", "1\n"⟩], 1⟩

/-- The linear import scenario: E imports D, D imports C, C has an empty
header; the bodies are arbitrary. -/
def chainEnv (bC bD bE : String) : String → Option NpdText := fun n =>
  if n = "E" then some ⟨"D", bE⟩
  else if n = "D" then some ⟨"C", bD⟩
  else if n = "C" then some ⟨"", bC⟩
  else none

/-! Auxiliary lemmas: injectivity of the decimal slot names, and lookup
laws for frames built from `enumerate` comprehensions. -/

lemma toDigitsCore_eq_digits (fuel : Nat) :
    ∀ (n : Nat) (ds : List Char), n ≠ 0 → n ≤ fuel →
    Nat.toDigitsCore 10 fuel n ds =
      ((Nat.digits 10 n).map Nat.digitChar).reverse ++ ds := by
  induction fuel with
  | zero => intro n ds hn hf; omega
  | succ f ih =>
    intro n ds hn hf
    have hd : Nat.digits 10 n = n % 10 :: Nat.digits 10 (n / 10) :=
      Nat.digits_def' (by norm_num) (Nat.pos_of_ne_zero hn)
    by_cases h0 : n / 10 = 0
    · simp only [Nat.toDigitsCore, h0, if_pos]
      rw [hd, h0]
      simp
    · simp only [Nat.toDigitsCore, h0, if_neg, if_false]
      have hlt : n / 10 < n := Nat.div_lt_self (Nat.pos_of_ne_zero hn) (by norm_num)
      rw [ih (n / 10) _ h0 (by omega), hd]
      simp

lemma digitChar_inj_fin : ∀ a b : Fin 10,
    Nat.digitChar a.val = Nat.digitChar b.val → a = b := by decide

lemma digitChar_inj {a b : Nat} (ha : a < 10) (hb : b < 10)
    (h : Nat.digitChar a = Nat.digitChar b) : a = b := by
  have := digitChar_inj_fin ⟨a, ha⟩ ⟨b, hb⟩ h
  exact congrArg Fin.val this

lemma map_digitChar_inj : ∀ (l1 l2 : List Nat),
    (∀ x ∈ l1, x < 10) → (∀ x ∈ l2, x < 10) →
    l1.map Nat.digitChar = l2.map Nat.digitChar → l1 = l2 := by
  intro l1
  induction l1 with
  | nil => intro l2 _ _ h; cases l2 <;> simp_all
  | cons x xs ih =>
    intro l2 h1 h2 h
    cases l2 with
    | nil => simp_all
    | cons y ys =>
      simp only [List.map_cons, List.cons.injEq] at h
      have hx : x = y := digitChar_inj (h1 x (by simp)) (h2 y (by simp)) h.1
      have : xs = ys := ih ys (fun z hz => h1 z (by simp [hz])) (fun z hz => h2 z (by simp [hz])) h.2
      simp [hx, this]

lemma natStr_eq_of_ne_zero {n : Nat} (hn : n ≠ 0) :
    natStr n = (((Nat.digits 10 n).map Nat.digitChar).reverse).asString := by
  show Nat.repr n = _
  rw [Nat.repr, Nat.toDigits, toDigitsCore_eq_digits (n + 1) n [] hn (by omega)]
  simp

lemma asString_inj {l1 l2 : List Char} (h : l1.asString = l2.asString) : l1 = l2 := by
  have h2 := congrArg String.data h
  simpa [List.asString] using h2

lemma digits_ne_single_zero {n : Nat} (hn : n ≠ 0) : Nat.digits 10 n ≠ [0] := by
  intro h4
  have h6 := Nat.ofDigits_digits 10 n
  rw [h4] at h6
  simp [Nat.ofDigits] at h6
  exact hn h6.symm

lemma natStr_map_eq_single_zero {n : Nat} (hn : n ≠ 0)
    (h3 : (Nat.digits 10 n).map Nat.digitChar = ['0']) : False := by
  have h4 : Nat.digits 10 n = [0] := by
    have := map_digitChar_inj (Nat.digits 10 n) [0]
      (fun x hx => Nat.digits_lt_base (by norm_num) hx)
      (by simp)
    apply this
    simpa using h3
  exact digits_ne_single_zero hn h4

lemma natStr_inj : ∀ {m n : Nat}, natStr m = natStr n → m = n := by
  intro m n h
  by_cases hm : m = 0 <;> by_cases hn : n = 0
  · omega
  · exfalso
    have hz : natStr 0 = List.asString ['0'] := rfl
    rw [hm, hz, natStr_eq_of_ne_zero hn] at h
    have h2 := asString_inj h
    apply natStr_map_eq_single_zero hn
    have := congrArg List.reverse h2
    simpa using this.symm
  · exfalso
    have hz : natStr 0 = List.asString ['0'] := rfl
    rw [hn, hz, natStr_eq_of_ne_zero hm] at h
    have h2 := asString_inj h
    apply natStr_map_eq_single_zero hm
    have := congrArg List.reverse h2
    simpa using this
  · rw [natStr_eq_of_ne_zero hm, natStr_eq_of_ne_zero hn] at h
    have h2 := asString_inj h
    have h3 := congrArg List.reverse h2
    simp only [List.reverse_reverse] at h3
    have h4 := map_digitChar_inj _ _
      (fun x hx => Nat.digits_lt_base (by norm_num) hx)
      (fun x hx => Nat.digits_lt_base (by norm_num) hx) h3
    exact Nat.digits.injective 10 h4

lemma slotName_inj : ∀ {a b : Nat}, slotName a = slotName b → a = b := by
  intro a b h
  apply natStr_inj
  have h2 := congrArg String.data h
  simp only [slotName, String.data_append] at h2
  have h3 := List.append_cancel_left h2
  exact String.ext h3

lemma frameGet_frameSet_self : ∀ (f : Frame) (k : String) (v : Value),
    frameGet (frameSet f k v) k = some v := by
  intro f k v
  induction f with
  | nil => simp [frameSet, frameGet, List.find?]
  | cons p rest ih =>
    by_cases h : p.1 = k
    · simp [frameSet, frameGet, List.find?, h]
    · simp only [frameSet]
      rw [if_neg (by simpa using h)]
      simp only [frameGet, List.find?] at ih ⊢
      rw [(by simpa using h : (p.1 == k) = false)]
      exact ih

lemma frameGet_frameSet_other : ∀ (f : Frame) (k k' : String) (v : Value),
    k' ≠ k → frameGet (frameSet f k v) k' = frameGet f k' := by
  intro f k k' v hne
  induction f with
  | nil => simp [frameSet, frameGet, List.find?, (by simpa using hne.symm : (k == k') = false)]
  | cons p rest ih =>
    by_cases h : p.1 = k
    · simp only [frameSet]
      rw [if_pos (by simpa using h)]
      simp only [frameGet, List.find?]
      rw [(by simpa using hne.symm : (k == k') = false), h,
        (by simpa using hne.symm : (k == k') = false)]
    · simp only [frameSet]
      rw [if_neg (by simpa using h)]
      simp only [frameGet, List.find?] at ih ⊢
      cases hpk : (p.1 == k') with
      | true => rfl
      | false => exact ih

lemma frameGet_buildFrame : ∀ (vals : List Value) (start i : Nat) (h : i < vals.length),
    frameGet (buildFrame start vals) (slotName (start + i)) = some (vals.get ⟨i, h⟩) := by
  intro vals
  induction vals with
  | nil => intro start i h; simp at h
  | cons v vs ih =>
    intro start i h
    cases i with
    | zero => simp [buildFrame, frameGet, List.find?]
    | succ j =>
      have hne : (slotName start == slotName (start + (j + 1))) = false := by
        simp only [beq_eq_false_iff_ne, ne_eq]
        intro hc
        have := slotName_inj hc
        omega
      simp only [buildFrame, frameGet, List.find?, hne]
      have := ih (start + 1) j (by simpa using h)
      rw [(by omega : start + (j + 1) = start + 1 + j)]
      simpa [frameGet] using this

lemma truthy_listRef_true {h2 : Heap} {r : Nat} (hr : h2.getD r [] ≠ []) :
    truthy h2 (Value.listRef r) = true := by
  rcases hxs : h2.getD r [] with _ | ⟨a, as⟩
  · exact absurd hxs hr
  · show ((h2.getD r []).length != 0) = true
    rw [hxs]
    simp

lemma truthy_listRef_false {h2 : Heap} {r : Nat} (hr : h2.getD r [] = []) :
    truthy h2 (Value.listRef r) = false := by
  show ((h2.getD r []).length != 0) = false
  rw [hr]
  rfl

lemma lookupChain_self (f : Frame) (anc : List Frame) (k : String) (v : Value)
    (h : frameGet f k = some v) : lookupChain f anc k = Except.ok v := by
  cases anc <;> simp [lookupChain, h]

/-- Helper for C2: from the two fully-loaded cycle states the resolver
loop alternates forever, so no amount of fuel finishes it. -/
lemma lpRun_cyc_swap : ∀ n, lpRun cycEnv n cycA = none ∧ lpRun cycEnv n cycB = none := by
  intro n
  induction n with
  | zero => exact ⟨rfl, rfl⟩
  | succ k ih =>
    exact ⟨(show lpRun cycEnv (k + 1) cycA = lpRun cycEnv k cycB from rfl).trans ih.2,
           (show lpRun cycEnv (k + 1) cycB = lpRun cycEnv k cycA from rfl).trans ih.1⟩

/-- C1 (counterexample): applying the divide operator to Integer operands
10 and 2 yields the freshly allocated two-element List [5, 0] — a
decimal-pair List with exponent 0 — and not the plain Integer value 5
the claim asserts. -/
theorem c1_divide_exact_counterexample :
    dispatch 5 [] Op.opDiv (Value.int 10) (Value.int 2) =
      DOut.ok (Value.listRef 0) [[Value.int 5, Value.int 0]] ∧
    Value.listRef 0 ≠ Value.int 5 := by
  refine ⟨rfl, ?_⟩
  intro h
  cases h

/-- C1 (amended): for all Integers x and y with y ≠ 0, x evenly
divisible by y, and the quotient of magnitude at most 2^53 — the range
in which the source's binary64 division `x / y` is exact, so that the
exact-fraction model coincides with the program (for larger quotients
the source rounds, e.g. divide(2^53 + 1, 1) yields mantissa
9007199254740992, not 2^53 + 1) — the divide operator returns the
two-element List [q, 0] where q is the exact Integer quotient
(q * y = x); the scaling loop performs zero steps, so the exponent is
0, but the result is still a List, not a bare Integer. -/
theorem c1_divide_exact_amended (x y : Int) (hy : y ≠ 0) (hdvd : y ∣ x)
    (hrep : (Int.tdiv x y).natAbs ≤ 2 ^ 53)
    (fuel : Nat) (heap : Heap) :
    dispatch fuel heap Op.opDiv (Value.int x) (Value.int y) =
      DOut.ok (Value.listRef heap.length)
        (heap ++ [[Value.int (Int.tdiv x y), Value.int 0]]) ∧
    Int.tdiv x y * y = x := by
  constructor
  · have hft : floatToListGo fuel x y 0 = some (Int.tdiv x y, 0) := by
      rw [floatToListGo.eq_def]
      rw [if_neg (by simp [hdvd])]
    simp only [dispatch]
    rw [if_neg hy]
    simp only [floatToList, hft]
    simp [alloc]
  · obtain ⟨k, hk⟩ := hdvd
    subst hk
    rw [Int.mul_tdiv_cancel_left _ hy, Int.mul_comm]

/-- C1 (witness): the amended theorem evaluated at x = 10, y = 2 (the
quotient 5 is well inside the binary64-exact range). -/
theorem c1_divide_exact_witness :
    (2 : Int) ≠ 0 ∧ (2 : Int) ∣ 10 ∧ (Int.tdiv 10 2).natAbs ≤ 2 ^ 53 ∧
    dispatch 1 [] Op.opDiv (Value.int 10) (Value.int 2) =
      DOut.ok (Value.listRef 0) [[Value.int 5, Value.int 0]] := by
  refine ⟨by decide, by decide, by decide, ?_⟩
  have h := (c1_divide_exact_amended 10 2 (by decide) (by decide) (by decide) 1 []).1
  simpa using h

/-- C2: on the two-unit import cycle (X imports Y, Y imports X) the
load_program loop never terminates: whatever the fuel, the run is still
unfinished, because one step maps state cycA to cycB and one step maps
cycB back to cycA, with the index stuck at 1.  In particular the source
never reports any error for the cycle (there is no ImportCycle raise in
the code at all). -/
theorem c2_import_cycle_diverges :
    (∀ fuel, loadProgramText cycEnv fuel "X" = none) ∧
    lpStep cycEnv cycA = Except.ok cycB ∧
    lpStep cycEnv cycB = Except.ok cycA := by
  refine ⟨?_, rfl, rfl⟩
  intro fuel
  rcases fuel with _ | fuel2
  · rfl
  rcases fuel2 with _ | m
  · rfl
  have h : lpRun cycEnv (m + 1 + 1) ⟨["X"], [none], 0⟩ = lpRun cycEnv m cycB := rfl
  simp only [loadProgramText, h, (lpRun_cyc_swap m).2]

/-- C3: the scaling loop of _float_to_list is NOT capped at 10 steps.
On divide(1, 2048) (a dyadic fraction, binary64-exact at every step) the
loop performs 11 scaling steps: with fuel for only 10 iterations it has
not finished, and the final result is [48828125, -11] with exponent
-11 < -10.  The guard `power < 10` of the source is vacuously true for a
power that starts at 0 and only decreases. -/
theorem c3_divide_scaling_unbounded :
    floatToList 20 1 2048 = some (48828125, -11) ∧
    floatToList 10 1 2048 = none ∧
    dispatch 20 [] Op.opDiv (Value.int 1) (Value.int 2048) =
      DOut.ok (Value.listRef 0) [[Value.int 48828125, Value.int (-11)]] ∧
    (-11 : Int) < -10 := ⟨by decide, by decide, rfl, by decide⟩

/-- C4 (counterexample): indexed assignment does NOT resolve the target
name through the ancestor chain.  With slot *1 bound to a List in the
parent scope (where get_value finds it), set_value with an index path
reads only the current scope's own dictionary and fails with a KeyError
(a Python error, not a NumpadError). -/
theorem c4_assign_indexed_counterexample :
    lookupChain [] [[("*1", Value.listRef 0)]] "*1" = Except.ok (Value.listRef 0) ∧
    setValue [[Value.int 7]] [] [[("*1", Value.listRef 0)]] "*1" [SIdx.lit 0] (Value.int 9) =
      Except.error (Err.python PKind.keyError) := ⟨rfl, rfl⟩

/-- C4 (amended): indexed assignment resolves the target name only in the
current scope's own dictionary (KeyError when the name lives in an
ancestor or nowhere); every NON-final index-path element that is a slot
name is resolved via lookup at mutation time, but the FINAL index is used
as a raw subscript — a slot-name final index raises TypeError; with a
literal in-range final index the addressed element is overwritten in
place on the heap. -/
theorem c4_assign_indexed_amended :
    (∀ (heap : Heap) (frame : Frame) (anc : List Frame) (name : String)
       (idxs : List SIdx) (v : Value),
       idxs ≠ [] → frameGet frame name = none →
       setValue heap frame anc name idxs v = Except.error (Err.python PKind.keyError)) ∧
    (∀ (heap : Heap) (frame : Frame) (anc : List Frame) (name : String)
       (r : Nat) (s : String) (v : Value),
       frameGet frame name = some (Value.listRef r) →
       setValue heap frame anc name [SIdx.slot s] v =
         Except.error (Err.python PKind.typeError)) ∧
    (∀ (heap : Heap) (frame : Frame) (anc : List Frame) (name : String)
       (r : Nat) (n : Int) (j : Nat) (v : Value),
       frameGet frame name = some (Value.listRef r) →
       pyNorm (heap.getD r []).length n = some j →
       setValue heap frame anc name [SIdx.lit n] v =
         Except.ok (heap.set r ((heap.getD r []).set j v), frame)) ∧
    (∀ (heap : Heap) (frame : Frame) (anc : List Frame) (name : String)
       (r : Nat) (s : String) (m : Int) (r2 : Nat) (n : Int) (j : Nat) (v : Value),
       frameGet frame name = some (Value.listRef r) →
       lookupChain frame anc s = Except.ok (Value.int m) →
       pyGet (heap.getD r []) m = some (Value.listRef r2) →
       pyNorm (heap.getD r2 []).length n = some j →
       setValue heap frame anc name [SIdx.slot s, SIdx.lit n] v =
         Except.ok (heap.set r2 ((heap.getD r2 []).set j v), frame)) := by
  refine ⟨?_, ?_, ?_, ?_⟩
  · intro heap frame anc name idxs v hne hget
    cases idxs with
    | nil => exact absurd rfl hne
    | cons i rest => simp only [setValue, hget]
  · intro heap frame anc name r s v hget
    simp only [setValue, hget, walkSet]
  · intro heap frame anc name r n j v hget hnorm
    simp only [setValue, hget, walkSet, pySet, hnorm]
    rfl
  · intro heap frame anc name r s m r2 n j v hget hlook hpg hnorm
    simp only [setValue, hget, walkSet, resolveIdxInt, hlook, hpg, pySet, hnorm]
    rfl

/-- C4 (witness): the amended theorem evaluated on concrete scopes. -/
theorem c4_assign_indexed_witness :
    frameGet ([] : Frame) "*1" = none ∧
    setValue [[Value.int 7]] [] [] "*1" [SIdx.lit 0] (Value.int 9) =
      Except.error (Err.python PKind.keyError) ∧
    frameGet [("*1", Value.listRef 0)] "*1" = some (Value.listRef 0) ∧
    setValue [[Value.int 7]] [("*1", Value.listRef 0)] [] "*1" [SIdx.slot "*9"] (Value.int 9) =
      Except.error (Err.python PKind.typeError) ∧
    setValue [[Value.int 7]] [("*1", Value.listRef 0)] [] "*1" [SIdx.lit 0] (Value.int 9) =
      Except.ok ([[Value.int 9]], [("*1", Value.listRef 0)]) := by
  have h := c4_assign_indexed_amended
  refine ⟨rfl, h.1 [[Value.int 7]] [] [] "*1" [SIdx.lit 0] (Value.int 9) (by simp) rfl, rfl,
    h.2.1 [[Value.int 7]] [("*1", Value.listRef 0)] [] "*1" 0 "*9" (Value.int 9) rfl, ?_⟩
  have h3 := h.2.2.1 [[Value.int 7]] [("*1", Value.listRef 0)] [] "*1" 0 0 0 (Value.int 9) rfl rfl
  simpa using h3

/-- C5 (counterexample): with the single parameter 5, slot *00 does not
hold 5 when the body starts — run overwrites the seeded *00 with
Integer 0 (scope.set_value("*00", 0) follows the parameter seeding), and
an empty program therefore returns 0 rather than 5. -/
theorem c5_run_seeding_counterexample :
    frameGet (initialScope [5]) "*00" = some (Value.int 0) ∧
    runProgram 2 (Block.mk []) [5] = some (Except.ok (Value.int 0)) ∧
    Value.int 0 ≠ Value.int 5 := by
  refine ⟨rfl, rfl, ?_⟩
  simp

/-- C5 (amended): run seeds slots *01, …, *0(k-1) with parameters
1..k-1 in declaration order, but slot *00 is overwritten with Integer 0
before the body runs (the first parameter is discarded); the result of
run is the final value of slot *00 after the program completes. -/
theorem c5_run_seeding_amended (params : List Int) (i : Nat)
    (h1 : 1 ≤ i) (h2 : i < params.length) :
    frameGet (initialScope params) (slotName i) =
      some (Value.int (params.get ⟨i, h2⟩)) ∧
    frameGet (initialScope params) "*00" = some (Value.int 0) ∧
    (∀ (fuel : Nat) (prog : Block) (h3 : Heap) (f2 : Frame),
       execBlock fuel [] (initialScope params) [] prog = some (Except.ok (h3, f2)) →
       runProgram fuel prog params =
         (match lookupChain f2 [] "*00" with
          | Except.ok v2 => some (Except.ok v2)
          | Except.error e => some (Except.error e))) := by
  refine ⟨?_, frameGet_frameSet_self _ _ _, ?_⟩
  · have hne : slotName i ≠ "*00" := by
      intro hc
      have : slotName i = slotName 0 := hc
      have := slotName_inj this
      omega
    rw [initialScope, frameGet_frameSet_other _ _ _ _ hne]
    have := frameGet_buildFrame (params.map Value.int) 0 i (by simpa using h2)
    simp only [Nat.zero_add] at this
    rw [seedFrame, this]
    congr 1
    simp [List.getElem_map]
  · intro fuel prog h3 f2 hexec
    simp only [runProgram, hexec]

/-- C5 (witness): the amended theorem evaluated at parameters [7, 42],
slot index 1, plus a concrete program returning its final *00. -/
theorem c5_run_seeding_witness :
    (1 ≤ 1) ∧ (1 < ([7, 42] : List Int).length) ∧
    frameGet (initialScope [7, 42]) (slotName 1) = some (Value.int 42) ∧
    frameGet (initialScope [7, 42]) "*00" = some (Value.int 0) ∧
    runProgram 10 (Block.mk [Stmt.set "*00" (Expr.var "*01")]) [7, 42] =
      some (Except.ok (Value.int 42)) := by
  have h := c5_run_seeding_amended [7, 42] 1 (by decide) (by decide)
  exact ⟨by decide, by decide, by simpa using h.1, h.2.1, rfl⟩

/-- C6: FuncExpression.run with N defaults and M arguments extends the
argument list with the defaults for indices M..N-1 when M < N (so the
extended vector has length N) and uses the arguments as-is when M ≥ N;
it runs the body in a child scope of the calling scope whose
dictionary binds slot *0(i+1) to the i-th extended argument and *00 to
Integer 0, and the call's result is the child scope's final *00. -/
theorem c6_function_invocation (fuel : Nat) (heap : Heap) (frame : Frame)
    (anc : List Frame) (defaults : List Value) (body : Block) (r : Nat)
    (args : List Value) (h : heap.get? r = some args) :
    (funcRun (fuel + 1) heap frame anc defaults body r =
      (match execBlock fuel (heap.set r (args ++ defaults.drop args.length))
          (frameSet (paramFrame (args ++ defaults.drop args.length)) "*00" (Value.int 0))
          (frame :: anc) body with
       | none => none
       | some (Except.error e) => some (Except.error e)
       | some (Except.ok (h3, childF2)) =>
         match lookupChain childF2 (frame :: anc) "*00" with
         | Except.ok v => some (Except.ok (v, h3))
         | Except.error e => some (Except.error e))) ∧
    (args.length < defaults.length →
       (args ++ defaults.drop args.length).length = defaults.length) ∧
    (defaults.length ≤ args.length → args ++ defaults.drop args.length = args) ∧
    (∀ (i : Nat) (hi : i < (args ++ defaults.drop args.length).length),
       frameGet (frameSet (paramFrame (args ++ defaults.drop args.length)) "*00" (Value.int 0))
         (slotName (i + 1)) = some ((args ++ defaults.drop args.length).get ⟨i, hi⟩)) ∧
    frameGet (frameSet (paramFrame (args ++ defaults.drop args.length)) "*00" (Value.int 0)) "*00"
      = some (Value.int 0) := by
  refine ⟨?_, ?_, ?_, ?_, ?_⟩
  · simp only [funcRun, h]
  · intro hlt
    simp [List.length_append, List.length_drop]
    omega
  · intro hge
    rw [List.drop_eq_nil_of_le hge, List.append_nil]
  · intro i hi
    have hne : slotName (i + 1) ≠ "*00" := by
      intro hc
      have : slotName (i + 1) = slotName 0 := hc
      have := slotName_inj this
      omega
    rw [frameGet_frameSet_other _ _ _ _ hne]
    have := frameGet_buildFrame (args ++ defaults.drop args.length) 1 i (by simpa using hi)
    rw [paramFrame]
    rw [(by omega : i + 1 = 1 + i)]
    exact this
  · exact frameGet_frameSet_self _ _ _

/-- C6 (witness): defaults [10, 20] invoked with arguments [5] run with
parameters [5, 20] and (on an empty body) return Integer 0. -/
theorem c6_function_invocation_witness :
    ([[Value.int 5]] : Heap).get? 0 = some [Value.int 5] ∧
    funcRun 3 [[Value.int 5]] [] [] [Value.int 10, Value.int 20] (Block.mk []) 0 =
      some (Except.ok (Value.int 0, [[Value.int 5, Value.int 20]])) := by
  refine ⟨rfl, ?_⟩
  have h := (c6_function_invocation 2 [[Value.int 5]] [] [] [Value.int 10, Value.int 20]
    (Block.mk []) 0 [Value.int 5] rfl).1
  rw [show (3 : Nat) = 2 + 1 from rfl, h]
  rfl

/-- C7: resolving unit E (which imports D, which imports C, which imports
nothing) terminates and produces the concatenation C-body, then D-body,
then E-body (the entry unit's own body last), for all unit bodies; a
second run with more fuel yields the identical concatenation. -/
theorem c7_resolution_order (bC bD bE : String) :
    loadProgramText (chainEnv bC bD bE) 10 "E" =
      some (Except.ok (bC ++ (bD ++ (bE ++ "\n")))) ∧
    loadProgramText (chainEnv bC bD bE) 99 "E" =
      some (Except.ok (bC ++ (bD ++ (bE ++ "\n")))) := ⟨rfl, rfl⟩

/-- C8: for every pair of operand variants and every operator symbol
absent from the matched pair's dispatch table — including any symbol
other than the subtract symbol between a Function and a List, and every
operator between two Functions — OperExpression.evaluate raises the
NumpadError for an unsupported operation, never any other kind of
failure. -/
theorem c8_unsupported_operation (fuel : Nat) (heap : Heap) (op : Op)
    (vl vr : Value) (h : missesTable op vl vr = true) :
    dispatch fuel heap op vl vr = DOut.err (Err.numpad NKind.unsupported) := by
  cases vl <;> cases vr <;> cases op <;> simp_all [missesTable, dispatch]

/-- C8 (witness): equality between two Functions is a table miss and
raises the unsupported-operation NumpadError. -/
theorem c8_unsupported_operation_witness :
    missesTable Op.opEq (Value.func [] (Block.mk [])) (Value.func [] (Block.mk [])) = true ∧
    dispatch 0 [] Op.opEq (Value.func [] (Block.mk [])) (Value.func [] (Block.mk [])) =
      DOut.err (Err.numpad NKind.unsupported) :=
  ⟨rfl, c8_unsupported_operation 0 [] Op.opEq _ _ rfl⟩

/-- C9 (counterexample): an If statement whose condition evaluates to the
EMPTY List runs the else block, not the then block: Python truthiness
makes the empty list falsy, so with then-block setting *1 to 1 and
else-block setting *1 to 2 the final frame holds *1 = 2. -/
theorem c9_if_truthiness_counterexample :
    execStmt 6 [] [] []
        (Stmt.sif (Expr.elist []) (Block.mk [Stmt.set "*1" (Expr.lit 1)])
          (some (Block.mk [Stmt.set "*1" (Expr.lit 2)]))) =
      some (Except.ok (([[]] : Heap), ([("*1", Value.int 2)] : Frame))) ∧
    (some (Except.ok (([[]] : Heap), ([("*1", Value.int 2)] : Frame)))
        : Option (Except Err (Heap × Frame))) ≠
      some (Except.ok (([[]] : Heap), ([("*1", Value.int 1)] : Frame))) := by
  refine ⟨rfl, ?_⟩
  simp

/-- C9 (amended): evaluating an If condition to a non-zero Integer, a
NON-empty List, or a Function runs the then block; evaluating it to
Integer 0 or to the empty List runs the else block when present and
nothing otherwise. -/
theorem c9_if_truthiness_amended (fuel : Nat) (heap h2 : Heap) (frame : Frame)
    (anc : List Frame) (c : Expr) (tb : Block) (eb : Option Block) (v : Value)
    (hc : evalExpr fuel heap frame anc c = some (Except.ok (v, h2))) :
    ((∃ i : Int, v = Value.int i ∧ i ≠ 0) ∨
       (∃ r : Nat, v = Value.listRef r ∧ h2.getD r [] ≠ []) ∨
       (∃ d b, v = Value.func d b) →
     execStmt (fuel + 1) heap frame anc (Stmt.sif c tb eb) =
       execBlock fuel h2 frame anc tb) ∧
    (v = Value.int 0 ∨ (∃ r : Nat, v = Value.listRef r ∧ h2.getD r [] = []) →
     execStmt (fuel + 1) heap frame anc (Stmt.sif c tb eb) =
       (match eb with
        | some b => execBlock fuel h2 frame anc b
        | none => some (Except.ok (h2, frame)))) := by
  have hstep : execStmt (fuel + 1) heap frame anc (Stmt.sif c tb eb) =
      (if truthy h2 v then execBlock fuel h2 frame anc tb
       else match eb with
         | some b => execBlock fuel h2 frame anc b
         | none => some (Except.ok (h2, frame))) := by
    simp only [execStmt, hc]
  constructor
  · intro hv
    rw [hstep]
    rcases hv with ⟨i, rfl, hi⟩ | ⟨r, rfl, hr⟩ | ⟨d, b, rfl⟩
    · rw [if_pos (by simp [truthy, hi])]
    · rw [if_pos (truthy_listRef_true hr)]
    · rw [if_pos (by simp [truthy])]
  · intro hv
    rw [hstep]
    rcases hv with rfl | ⟨r, rfl, hr⟩
    · rw [if_neg (by simp [truthy])]
    · rw [if_neg (by simp [truthy_listRef_false hr])]

/-- C9 (witness): the amended theorem at the non-zero Integer condition
5: the If statement runs its then block. -/
theorem c9_if_truthiness_witness :
    evalExpr 2 [] [] [] (Expr.lit 5) = some (Except.ok (Value.int 5, [])) ∧
    execStmt 3 [] [] [] (Stmt.sif (Expr.lit 5) (Block.mk []) none) =
      execBlock 2 [] [] [] (Block.mk []) := by
  refine ⟨rfl, ?_⟩
  have h := (c9_if_truthiness_amended 2 [] [] [] [] (Expr.lit 5) (Block.mk []) none
    (Value.int 5) rfl).1
  rw [show (3 : Nat) = 2 + 1 from rfl]
  exact h (Or.inl ⟨5, rfl, by decide⟩)

/-- C10: when a Function with N defaults is invoked via the subtract
operator with an argument List of length M < N, the default-fill step
mutates the argument List object itself on the heap: after the call (with
an empty body, isolating the fill step) the list stored at the argument
reference is args ++ defaults.drop M, strictly longer than the original
— so a List obtained from a slot is observably longer through that slot
after the call returns. -/
theorem c10_default_fill_aliasing (fuel : Nat) (heap : Heap) (frame : Frame)
    (anc : List Frame) (defaults : List Value) (r : Nat) (args : List Value)
    (h : heap.get? r = some args) (hlt : args.length < defaults.length) :
    funcRun (fuel + 3) heap frame anc defaults (Block.mk []) r =
      some (Except.ok (Value.int 0, heap.set r (args ++ defaults.drop args.length))) ∧
    (heap.set r (args ++ defaults.drop args.length)).get? r =
      some (args ++ defaults.drop args.length) ∧
    args.length < (args ++ defaults.drop args.length).length := by
  refine ⟨?_, ?_, ?_⟩
  · have hl := lookupChain_self
      (frameSet (paramFrame (args ++ defaults.drop args.length)) "*00" (Value.int 0))
      (frame :: anc) "*00" (Value.int 0) (frameGet_frameSet_self _ _ _)
    simp only [funcRun, h, execBlock, execStmts, hl]
  · rw [List.get?_eq_getElem?, List.getElem?_set_self']
    rw [(by simpa using h : heap[r]? = some args)]
    rfl
  · simp [List.length_append, List.length_drop]
    omega

/-- C10 (witness): slot *2 holds the list [5]; calling the function with
defaults [10, 20] through the subtract operator leaves the heap cell that
slot *2 still references holding [5, 20] — the slot's list grew. -/
theorem c10_default_fill_aliasing_witness :
    ([[Value.int 5]] : Heap).get? 0 = some [Value.int 5] ∧
    ([Value.int 5] : List Value).length < ([Value.int 10, Value.int 20] : List Value).length ∧
    funcRun 3 [[Value.int 5]] [("*2", Value.listRef 0)] [] [Value.int 10, Value.int 20]
        (Block.mk []) 0 =
      some (Except.ok (Value.int 0, [[Value.int 5, Value.int 20]])) ∧
    evalExpr 9 [[Value.int 5]]
        [("*1", Value.func [Value.int 10, Value.int 20] (Block.mk [])),
         ("*2", Value.listRef 0)] []
        (Expr.oper (Expr.var "*1") Op.opSub (Expr.var "*2")) =
      some (Except.ok (Value.int 0, [[Value.int 5, Value.int 20]])) := by
  refine ⟨rfl, by decide, ?_, rfl⟩
  have h := (c10_default_fill_aliasing 0 [[Value.int 5]] [("*2", Value.listRef 0)] []
    [Value.int 10, Value.int 20] 0 [Value.int 5] rfl (by decide)).1
  rw [show (3 : Nat) = 0 + 3 from rfl, h]
  rfl
